import Mathlib

/-!
# Generic binary test fixtures of kitex (`pkg/generic/binary_test/generic_init.go`)

A shallow embedding of the generic handlers of `generic_init.go` together with the
Thrift binary frame codec they call.  Go byte slices and Go strings are lists of bytes,
`int32` values are integers reduced modulo `2^32` where the code converts them, and a
Go function that may panic returns `Except String _` whose error is the panic.
-/

set_option maxRecDepth 100000

namespace Kitex

/-- A Go `byte`. -/
abbrev Byte := Fin 256

/-- A Go `[]byte`; a Go `string` is the same sequence of bytes. -/
abbrev Bytes := List Byte

/-- The conversion `byte(n)`: the low eight bits of `n`. -/
def byte (n : Nat) : Byte := ⟨n % 256, Nat.mod_lt n (by decide)⟩

/-- The bytes of a Go string literal (its UTF-8 encoding). -/
def bytesOf (s : String) : Bytes := s.toUTF8.data.toList.map (fun b => byte b.toNat)

/-- Go `error` values that the handlers and the codec produce. -/
inductive GoError where
  /-- An error made by `errors.New` or `fmt.Errorf`. -/
  | errorString (msg : String)
  /-- A business status error of `kerrors`. -/
  | bizStatus (code : Int) (msg : String)
  /-- A Thrift application exception read from an EXCEPTION frame. -/
  | applicationException (typ : Int) (msg : Bytes)
  /-- A decode error of the binary protocol. -/
  | protocol (msg : String)
  deriving DecidableEq, Repr

namespace thrift

/-- Modelled from the spec: the message kind, `TMessageType` of the Thrift library (an
`int32` of which the frame stores the low byte). -/
abbrev TMessageType := Nat

/-- Modelled from the spec: the wire type of a value, `TType` of the Thrift library. -/
abbrev TType := Nat

/-- Modelled from the spec: the message kind CALL. -/
def CALL : TMessageType := 1
/-- Modelled from the spec: the message kind REPLY. -/
def REPLY : TMessageType := 2
/-- Modelled from the spec: the message kind EXCEPTION. -/
def EXCEPTION : TMessageType := 3
/-- Modelled from the spec: the message kind ONEWAY. -/
def ONEWAY : TMessageType := 4

/-- Modelled from the spec: the end marker of a structure. -/
def STOP : TType := 0
/-- Modelled from the spec: the Thrift wire type `bool`. -/
def BOOL : TType := 2
/-- Modelled from the spec: the Thrift wire type `byte`. -/
def BYTE : TType := 3
/-- Modelled from the spec: the Thrift wire type `double`. -/
def DOUBLE : TType := 4
/-- Modelled from the spec: the Thrift wire type `i16`. -/
def I16 : TType := 6
/-- Modelled from the spec: the Thrift wire type `i32`. -/
def I32 : TType := 8
/-- Modelled from the spec: the Thrift wire type `i64`. -/
def I64 : TType := 10
/-- Modelled from the spec: the Thrift wire type `string`. -/
def STRING : TType := 11
/-- Modelled from the spec: the Thrift wire type `struct`. -/
def STRUCT : TType := 12
/-- Modelled from the spec: the Thrift wire type `map`. -/
def MAP : TType := 13
/-- Modelled from the spec: the Thrift wire type `set`. -/
def SET : TType := 14
/-- Modelled from the spec: the Thrift wire type `list`. -/
def LIST : TType := 15

/-- Modelled from the spec: the version word of the strict binary message header. -/
def msgVersion1 : Nat := 0x80010000
/-- Modelled from the spec: the bits of the header word that hold the version. -/
def msgVersionMask : Nat := 0xffff0000
/-- Modelled from the spec: the bits of the header word that hold the message kind. -/
def msgTypeMask : Nat := 0x000000ff

/-- The conversion `uint32(x)` of an `int32`. -/
def u32 (x : Int) : Nat := (x % 2 ^ 32).toNat

/-- The conversion `int32(n)` of a `uint32`. -/
def i32 (n : Nat) : Int :=
  if n % 2 ^ 32 < 2 ^ 31 then ((n % 2 ^ 32 : Nat) : Int) else ((n % 2 ^ 32 : Nat) : Int) - 2 ^ 32

/-- The four bytes `binary.BigEndian.PutUint32` stores for `v`. -/
def putUint32 (v : Nat) : Bytes :=
  [byte (v / 2 ^ 24), byte (v / 2 ^ 16), byte (v / 2 ^ 8), byte v]

/-- The value `binary.BigEndian.Uint32` reads from four bytes. -/
def getUint32 (b0 b1 b2 b3 : Byte) : Nat :=
  b0.val * 2 ^ 24 + b1.val * 2 ^ 16 + b2.val * 2 ^ 8 + b3.val

/-- Appends the four big-endian bytes of `v` to `buf`. -/
def appendUint32 (buf : Bytes) (v : Nat) : Bytes := buf ++ putUint32 v

/-- Modelled from the spec: the decode error of a truncated message begin (the spec
fixes that decode errors are errors, not their text). -/
def errReadMessage : GoError := .protocol "ReadMessageBegin: buf not enough"
/-- Modelled from the spec: the decode error of a header word without the version. -/
def errBadVersion : GoError := .protocol "ReadMessageBegin: bad version"
/-- Modelled from the spec: the decode error of a truncated string. -/
def errReadStr : GoError := .protocol "ReadString: buf not enough"
/-- Modelled from the spec: the decode error of a truncated `int32`. -/
def errReadI32 : GoError := .protocol "ReadI32: buf not enough"
/-- Modelled from the spec: the decode error of a negative length. -/
def errDataLength : GoError := .protocol "invalid data length"

namespace Binary

/-- Modelled from the spec: `messageBeginLength` of the Binary Frame Codec
(`thrift.Binary.MessageBeginLength`, whose source is not part of `src/`): the length of
the frame prefix, a four byte version and kind word, the length-prefixed method name and
the four byte sequence id. -/
def MessageBeginLength (name : Bytes) (_typeID : TMessageType) (_seq : Int) : Nat :=
  4 + (4 + name.length) + 4

/-- Modelled from the spec: `AppendI32` of the Binary Frame Codec, a big-endian `int32`. -/
def AppendI32 (buf : Bytes) (v : Int) : Bytes := appendUint32 buf (u32 v)

/-- Modelled from the spec: `AppendString` of the Binary Frame Codec, the length as a
big-endian `uint32(len(s))` followed by the bytes of `s`. -/
def AppendString (buf : Bytes) (s : Bytes) : Bytes :=
  appendUint32 buf (s.length % 2 ^ 32) ++ s

/-- Modelled from the spec: `beginMessage` of the Binary Frame Codec
(`thrift.Binary.AppendMessageBegin`, whose source is not part of `src/`): the strict
Thrift binary message header, version word or-ed with the message kind, then the method
name, then the sequence id.  The name starts at offset 8, as `req[8+len(method):]` in
`GenericServiceImpl.GenericCall` relies on. -/
def AppendMessageBegin (buf : Bytes) (name : Bytes) (typeID : TMessageType) (seq : Int) : Bytes :=
  AppendI32 (AppendString (appendUint32 buf (msgVersion1 ||| (typeID &&& msgTypeMask))) name) seq

/-- Modelled from the spec: `ReadI32` of the Binary Frame Codec; a buffer of fewer than
four bytes is a decode error. -/
def ReadI32 (buf : Bytes) : Except GoError (Int × Nat) :=
  match buf with
  | b0 :: b1 :: b2 :: b3 :: _ => .ok (i32 (getUint32 b0 b1 b2 b3), 4)
  | _ => .error errReadI32

/-- Modelled from the spec: `ReadString` of the Binary Frame Codec; a truncated length
or body and a negative length are decode errors. -/
def ReadString (buf : Bytes) : Except GoError (Bytes × Nat) :=
  match ReadI32 buf with
  | .error _ => .error errReadStr
  | .ok (sz, _) =>
    if sz < 0 then .error errDataLength
    else if buf.length < 4 + sz.toNat then .error errReadStr
    else .ok ((buf.drop 4).take sz.toNat, 4 + sz.toNat)

/-- Modelled from the spec: `readMessageBegin` of the Binary Frame Codec
(`thrift.Binary.ReadMessageBegin`, whose source is not part of `src/`): returns the
method name, the message kind, the sequence id and the number of bytes read; a
malformed or truncated prefix is a decode error. -/
def ReadMessageBegin (buf : Bytes) : Except GoError (Bytes × TMessageType × Int × Nat) :=
  match buf with
  | b0 :: b1 :: b2 :: b3 :: rest =>
    let header := getUint32 b0 b1 b2 b3
    if header &&& msgVersionMask ≠ msgVersion1 then .error errBadVersion
    else
      let typeID : TMessageType := header &&& msgTypeMask
      match ReadString rest with
      | .error _ => .error errReadMessage
      | .ok (name, l) =>
        let off := 4 + l
        match ReadI32 (buf.drop off) with
        | .error _ => .error errReadMessage
        | .ok (seq, l2) => .ok (name, typeID, seq, off + l2)
  | _ => .error errReadMessage

end Binary

/-- Modelled from the spec: the decode error of a truncated field header. -/
def errReadField : GoError := .protocol "ReadFieldBegin: buf not enough"
/-- Modelled from the spec: the decode error of data nested too deeply. -/
def errDepthLimitExceeded : GoError := .protocol "depth limit exceeded"
/-- Modelled from the spec: the decode error of a truncated value. -/
def errUnexpectedEOF : GoError := .protocol "unexpected EOF"
/-- Modelled from the spec: the decode error of an unknown wire type. -/
def errUnknownType : GoError := .protocol "unknown data type"
/-- Modelled from the spec: the decode error of a structure that does not close. -/
def errNoStop : GoError := .protocol "struct is not closed"

/-- Modelled from the spec: the recursion bound of `Skip`. -/
def defaultRecursionDepth : Nat := 64

/-- Modelled from the spec: the wire size of a fixed-size type, `0` for the others. -/
def typeToSize (t : TType) : Nat :=
  if t = BOOL ∨ t = BYTE then 1
  else if t = I16 then 2
  else if t = I32 then 4
  else if t = I64 ∨ t = DOUBLE then 8
  else 0

namespace Binary

/-- Modelled from the spec: `ReadFieldBegin` of the Binary Frame Codec: the type byte
of a field and, unless it is the stop marker, its big-endian 16 bit id. -/
def ReadFieldBegin (buf : Bytes) : Except GoError (TType × Nat × Nat) :=
  match buf with
  | [] => .error errReadField
  | t :: rest =>
    if t.val = STOP then .ok (STOP, 0, 1)
    else
      match rest with
      | i0 :: i1 :: _ => .ok (t.val, i0.val * 256 + i1.val, 3)
      | _ => .error errReadField

/-- Modelled from the spec: skips `n` values, each skipped by `skip`; returns the number
of bytes passed over. -/
def skipN (skip : Bytes → Except GoError Nat) : Nat → Bytes → Except GoError Nat
  | 0, _ => .ok 0
  | n + 1, b =>
    match skip b with
    | .error e => .error e
    | .ok l =>
      match skipN skip n (b.drop l) with
      | .error e => .error e
      | .ok l2 => .ok (l + l2)

/-- Modelled from the spec: skips the fields of a struct up to and including its stop
marker; `fuel` bounds the number of fields by the length of the buffer. -/
def skipFields (skip : Bytes → TType → Except GoError Nat) : Nat → Bytes → Except GoError Nat
  | 0, _ => .error errNoStop
  | fuel + 1, b =>
    match ReadFieldBegin b with
    | .error e => .error e
    | .ok (tp, _, l) =>
      if tp = STOP then .ok l
      else
        match skip (b.drop l) tp with
        | .error e => .error e
        | .ok l1 =>
          match skipFields skip fuel (b.drop (l + l1)) with
          | .error e => .error e
          | .ok l2 => .ok (l + l1 + l2)

/-- Modelled from the spec: skips one key and one value of a map entry. -/
def skipPair (skip : Bytes → TType → Except GoError Nat) (kt vt : TType) (b : Bytes) :
    Except GoError Nat :=
  match skip b kt with
  | .error e => .error e
  | .ok l =>
    match skip (b.drop l) vt with
    | .error e => .error e
    | .ok l2 => .ok (l + l2)

/-- Modelled from the spec: the value skipper of the Binary Frame Codec, by which a
reader passes over a field it does not know; nesting is bounded by `maxdepth`. -/
def skipType : Nat → Bytes → TType → Except GoError Nat
  | 0, _, _ => .error errDepthLimitExceeded
  | maxdepth + 1, b, t =>
    if 0 < typeToSize t then
      if b.length < typeToSize t then .error errUnexpectedEOF else .ok (typeToSize t)
    else if t = STRING then
      match ReadString b with
      | .error e => .error e
      | .ok (_, l) => .ok l
    else if t = MAP then
      match b with
      | kt :: vt :: b0 :: b1 :: b2 :: b3 :: rest =>
        let sz := i32 (getUint32 b0 b1 b2 b3)
        if sz < 0 then .error errDataLength
        else
          match skipN (skipPair (skipType maxdepth) kt.val vt.val) sz.toNat rest with
          | .error e => .error e
          | .ok l => .ok (6 + l)
      | _ => .error errUnexpectedEOF
    else if t = LIST ∨ t = SET then
      match b with
      | et :: b0 :: b1 :: b2 :: b3 :: rest =>
        let sz := i32 (getUint32 b0 b1 b2 b3)
        if sz < 0 then .error errDataLength
        else
          match skipN (fun x => skipType maxdepth x et.val) sz.toNat rest with
          | .error e => .error e
          | .ok l => .ok (5 + l)
      | _ => .error errUnexpectedEOF
    else if t = STRUCT then
      skipFields (skipType maxdepth) (b.length + 1) b
    else .error errUnknownType

/-- Modelled from the spec: `Skip` of the Binary Frame Codec. -/
def Skip (b : Bytes) (t : TType) : Except GoError Nat := skipType defaultRecursionDepth b t

end Binary

/-- Modelled from the spec: the `FastCodec` interface of generated Thrift code, the
Generic Message Reader and Writer of one struct: the encoded length of a message,
the bytes `FastWriteNocopy` stores at the start of the buffer it is given, and `FastRead`,
which fills in the receiver from a buffer and returns the number of bytes read. -/
structure FastCodec (α : Type) where
  BLength : α → Nat
  FastWriteNocopy : α → Bytes
  FastRead : α → Bytes → Except GoError (α × Nat)

/-- Stores `data` into the buffer `b` from offset `off` on (a write into `b[off:]`). -/
def store (b : Bytes) (off : Nat) (data : Bytes) : Bytes :=
  b.take off ++ data ++ b.drop (off + data.length)

/-- Modelled from the spec: an application exception, the payload of an EXCEPTION frame:
its type `t` and its message `m`. -/
structure ApplicationException where
  t : Int
  m : Bytes
  deriving DecidableEq, Repr

/-- Modelled from the spec: the reader of an application exception, the payload of an
EXCEPTION frame: field 1 is the message, field 2 the type, any other field is skipped. -/
def ApplicationException.fastReadLoop :
    Nat → ApplicationException → Bytes → Except GoError (ApplicationException × Nat)
  | 0, _, _ => .error errNoStop
  | fuel + 1, e, b =>
    match Binary.ReadFieldBegin b with
    | .error err => .error err
    | .ok (tp, id, l) =>
      if tp = STOP then .ok (e, l)
      else if id = 1 ∧ tp = STRING then
        match Binary.ReadString (b.drop l) with
        | .error err => .error err
        | .ok (m, l1) =>
          match fastReadLoop fuel { e with m := m } (b.drop (l + l1)) with
          | .error err => .error err
          | .ok (e2, l2) => .ok (e2, l + l1 + l2)
      else if id = 2 ∧ tp = I32 then
        match Binary.ReadI32 (b.drop l) with
        | .error err => .error err
        | .ok (t, l1) =>
          match fastReadLoop fuel { e with t := t } (b.drop (l + l1)) with
          | .error err => .error err
          | .ok (e2, l2) => .ok (e2, l + l1 + l2)
      else
        match Binary.Skip (b.drop l) tp with
        | .error err => .error err
        | .ok l1 =>
          match fastReadLoop fuel e (b.drop (l + l1)) with
          | .error err => .error err
          | .ok (e2, l2) => .ok (e2, l + l1 + l2)

/-- Modelled from the spec: `FastRead` of an application exception. -/
def ApplicationException.FastRead (e : ApplicationException) (b : Bytes) :
    Except GoError (ApplicationException × Nat) :=
  ApplicationException.fastReadLoop (b.length + 1) e b

/-- Modelled from the spec: `thrift.MarshalFastMsg` (its source is not part of `src/`):
the frame of a typed message, the message-begin prefix followed by the encoded struct,
written into one buffer of `MessageBeginLength + BLength` bytes.  An empty method name
is refused.  The first component is the nil slice when an error is returned. -/
def MarshalFastMsg {α : Type} (c : FastCodec α) (method : Bytes) (msgType : TMessageType)
    (seq : Int) (msg : α) : Bytes × Option GoError :=
  if method = [] then ([], some (.errorString "method not set"))
  else
    let sz := Binary.MessageBeginLength method msgType seq + c.BLength msg
    let b : Bytes := List.replicate sz 0
    let hdr := Binary.AppendMessageBegin [] method msgType seq
    let b := store b 0 hdr
    let b := store b hdr.length (c.FastWriteNocopy msg)
    (b, none)

/-- Modelled from the spec: `thrift.UnmarshalFastMsg` (its source is not part of `src/`):
reads the message-begin prefix and then the struct into `msg`; returns the message as
filled in, the method name, the sequence id and the error.  An EXCEPTION frame yields
the application exception it carries as the error.  When the struct reader fails the
message is returned as it was (the caller drops it). -/
def UnmarshalFastMsg {α : Type} (c : FastCodec α) (b : Bytes) (msg : α) :
    α × Bytes × Int × Option GoError :=
  match Binary.ReadMessageBegin b with
  | .error err => (msg, [], 0, some err)
  | .ok (method, msgType, seq, i) =>
    let b := b.drop i
    if msgType = EXCEPTION then
      match ApplicationException.FastRead ⟨0, []⟩ b with
      | .error err => (msg, method, seq, some err)
      | .ok (ex, _) => (msg, method, seq, some (.applicationException ex.t ex.m))
    else
      match c.FastRead msg b with
      | .error err => (msg, method, seq, some err)
      | .ok (msg2, _) => (msg2, method, seq, none)

end thrift

open thrift

namespace kerrors

/-- Modelled from the spec: `kerrors.NewBizStatusError` (its source is not part of `src/`):
the business error object that carries the given code and message. -/
def NewBizStatusError (code : Int) (msg : String) : GoError := .bizStatus code msg

/-- Modelled from the spec: the code of a business status error, `BizStatusCode()`. -/
def BizStatusCode : GoError → Option Int
  | .bizStatus code _ => some code
  | _ => none

/-- Modelled from the spec: the message of a business status error, `BizMessage()`. -/
def BizMessage : GoError → Option String
  | .bizStatus _ msg => some msg
  | _ => none

/-- Modelled from the spec: whether an error is a declared business error. -/
def IsBizStatusError (e : GoError) : Bool := (BizStatusCode e).isSome

end kerrors

namespace kt

/-- Modelled from the spec: the request struct `kt.MockReq` (its source is not part of
`src/`), with the field `Msg` that the handlers read. -/
structure MockReq where
  Msg : Bytes
  deriving DecidableEq, Repr

/-- Modelled from the spec: the argument struct `kt.MockTestArgs` of method `Test`; `Req`
is a pointer, `none` when nil. -/
structure MockTestArgs where
  Req : Option MockReq
  deriving DecidableEq, Repr

/-- Modelled from the spec: the result struct `kt.MockTestResult` of method `Test`;
`Success` is a pointer, `none` when nil. -/
structure MockTestResult where
  Success : Option Bytes
  deriving DecidableEq, Repr

/-- Modelled from the spec: `kt.NewMockReq`, a request with zero fields. -/
def NewMockReq : MockReq := { Msg := [] }
/-- Modelled from the spec: `kt.NewMockTestArgs`, arguments with zero fields. -/
def NewMockTestArgs : MockTestArgs := { Req := none }
/-- Modelled from the spec: `kt.NewMockTestResult`, a result with zero fields. -/
def NewMockTestResult : MockTestResult := { Success := none }

/-- Modelled from the spec: the bytes of a field header, the type and the big-endian id. -/
def fieldBegin (t : TType) (id : Nat) : Bytes := [byte t, byte (id / 256), byte id]

/-- Modelled from the spec: the generated writer of `kt.MockReq` (its source is not part
of `src/`): the string field `Msg` with id 1, then the stop marker. -/
def MockReq.FastWriteNocopy (p : MockReq) : Bytes :=
  Binary.AppendString (fieldBegin STRING 1) p.Msg ++ [byte STOP]

/-- Modelled from the spec: the generated `BLength` of `kt.MockReq`. -/
def MockReq.BLength (p : MockReq) : Nat := 3 + (4 + p.Msg.length) + 1

/-- Modelled from the spec: the generated reader of `kt.MockReq` (its source is not part
of `src/`): field 1 of type string is `Msg`, every other field is skipped. -/
def MockReq.fastReadLoop : Nat → MockReq → Bytes → Except GoError (MockReq × Nat)
  | 0, _, _ => .error errNoStop
  | fuel + 1, p, b =>
    match Binary.ReadFieldBegin b with
    | .error err => .error err
    | .ok (tp, id, l) =>
      if tp = STOP then .ok (p, l)
      else if id = 1 ∧ tp = STRING then
        match Binary.ReadString (b.drop l) with
        | .error err => .error err
        | .ok (s, l1) =>
          match fastReadLoop fuel { p with Msg := s } (b.drop (l + l1)) with
          | .error err => .error err
          | .ok (p2, l2) => .ok (p2, l + l1 + l2)
      else
        match Binary.Skip (b.drop l) tp with
        | .error err => .error err
        | .ok l1 =>
          match fastReadLoop fuel p (b.drop (l + l1)) with
          | .error err => .error err
          | .ok (p2, l2) => .ok (p2, l + l1 + l2)

/-- Modelled from the spec: the generated `FastRead` of `kt.MockReq`. -/
def MockReq.FastRead (p : MockReq) (b : Bytes) : Except GoError (MockReq × Nat) :=
  MockReq.fastReadLoop (b.length + 1) p b

/-- Modelled from the spec: the generated writer of `kt.MockTestArgs`: the struct field
`Req` with id 1 (an empty struct for a nil `Req`), then the stop marker. -/
def MockTestArgs.FastWriteNocopy (p : MockTestArgs) : Bytes :=
  fieldBegin STRUCT 1 ++
    (match p.Req with
      | some r => r.FastWriteNocopy
      | none => [byte STOP]) ++ [byte STOP]

/-- Modelled from the spec: the generated `BLength` of `kt.MockTestArgs`. -/
def MockTestArgs.BLength (p : MockTestArgs) : Nat :=
  3 + (match p.Req with
    | some r => r.BLength
    | none => 1) + 1

/-- Modelled from the spec: the generated reader of `kt.MockTestArgs`: field 1 of type
struct is read into a new `MockReq` stored in `Req`, every other field is skipped. -/
def MockTestArgs.fastReadLoop : Nat → MockTestArgs → Bytes → Except GoError (MockTestArgs × Nat)
  | 0, _, _ => .error errNoStop
  | fuel + 1, p, b =>
    match Binary.ReadFieldBegin b with
    | .error err => .error err
    | .ok (tp, id, l) =>
      if tp = STOP then .ok (p, l)
      else if id = 1 ∧ tp = STRUCT then
        match MockReq.FastRead NewMockReq (b.drop l) with
        | .error err => .error err
        | .ok (r, l1) =>
          match fastReadLoop fuel { p with Req := some r } (b.drop (l + l1)) with
          | .error err => .error err
          | .ok (p2, l2) => .ok (p2, l + l1 + l2)
      else
        match Binary.Skip (b.drop l) tp with
        | .error err => .error err
        | .ok l1 =>
          match fastReadLoop fuel p (b.drop (l + l1)) with
          | .error err => .error err
          | .ok (p2, l2) => .ok (p2, l + l1 + l2)

/-- Modelled from the spec: the generated `FastRead` of `kt.MockTestArgs`. -/
def MockTestArgs.FastRead (p : MockTestArgs) (b : Bytes) : Except GoError (MockTestArgs × Nat) :=
  MockTestArgs.fastReadLoop (b.length + 1) p b

/-- Modelled from the spec: the generated writer of `kt.MockTestResult`: the string field
`Success` with id 0 when it is set, then the stop marker. -/
def MockTestResult.FastWriteNocopy (p : MockTestResult) : Bytes :=
  (match p.Success with
    | some s => Binary.AppendString (fieldBegin STRING 0) s
    | none => []) ++ [byte STOP]

/-- Modelled from the spec: the generated `BLength` of `kt.MockTestResult`. -/
def MockTestResult.BLength (p : MockTestResult) : Nat :=
  (match p.Success with
    | some s => 3 + (4 + s.length)
    | none => 0) + 1

/-- Modelled from the spec: the generated reader of `kt.MockTestResult`: field 0 of type
string is `Success`, every other field is skipped. -/
def MockTestResult.fastReadLoop :
    Nat → MockTestResult → Bytes → Except GoError (MockTestResult × Nat)
  | 0, _, _ => .error errNoStop
  | fuel + 1, p, b =>
    match Binary.ReadFieldBegin b with
    | .error err => .error err
    | .ok (tp, id, l) =>
      if tp = STOP then .ok (p, l)
      else if id = 0 ∧ tp = STRING then
        match Binary.ReadString (b.drop l) with
        | .error err => .error err
        | .ok (s, l1) =>
          match fastReadLoop fuel { p with Success := some s } (b.drop (l + l1)) with
          | .error err => .error err
          | .ok (p2, l2) => .ok (p2, l + l1 + l2)
      else
        match Binary.Skip (b.drop l) tp with
        | .error err => .error err
        | .ok l1 =>
          match fastReadLoop fuel p (b.drop (l + l1)) with
          | .error err => .error err
          | .ok (p2, l2) => .ok (p2, l + l1 + l2)

/-- Modelled from the spec: the generated `FastRead` of `kt.MockTestResult`. -/
def MockTestResult.FastRead (p : MockTestResult) (b : Bytes) :
    Except GoError (MockTestResult × Nat) :=
  MockTestResult.fastReadLoop (b.length + 1) p b

/-- Modelled from the spec: the type `*kt.MockTestArgs` as a `FastCodec`. -/
def MockTestArgs.codec : FastCodec MockTestArgs :=
  ⟨MockTestArgs.BLength, MockTestArgs.FastWriteNocopy, MockTestArgs.FastRead⟩

/-- Modelled from the spec: the type `*kt.MockTestResult` as a `FastCodec`. -/
def MockTestResult.codec : FastCodec MockTestResult :=
  ⟨MockTestResult.BLength, MockTestResult.FastWriteNocopy, MockTestResult.FastRead⟩

/-- Modelled from the spec: the interface `kt.Mock`, the method `Test` as `testHandler`
calls it.  A call may panic. -/
structure Mock where
  Test : Option MockReq → Except String (Bytes × Option GoError)

end kt

/-- A Go `interface{}` value as far as the handlers inspect it. -/
inductive GoValue where
  /-- The nil interface. -/
  | nil
  /-- A `[]byte`. -/
  | bytes (b : Bytes)
  /-- A `*kt.MockTestArgs`. -/
  | testArgs (a : kt.MockTestArgs)
  /-- A `*kt.MockTestResult`. -/
  | testResult (r : kt.MockTestResult)
  /-- A value of any other dynamic type. -/
  | other (typeName : String)
  deriving DecidableEq, Repr

/-- What a handler returns: `(response interface{}, err error)`. -/
abbrev CallResult := GoValue × Option GoError

/-- The panic of a failed type assertion. -/
def panicConversion : String := "interface conversion"

/-- The panic of a slice expression whose bound exceeds the length. -/
def panicSliceBounds : String := "slice bounds out of range"

/-- The panic of a field access through a nil pointer. -/
def panicNilDeref : String := "invalid memory address or nil pointer dereference"

/-- The package variable `reqMsg`. -/
def reqMsg : String := "Hello Kitex"
/-- The package variable `respMsg`. -/
def respMsg : String := "Hi, I am Kitex"
/-- The package variable `errResp`. -/
def errResp : String := "Test Error"

/-- The function `genBinaryResp`, the capacity `n` it allocates. -/
def genBinaryResp.n (method : Bytes) : Nat :=
  Binary.MessageBeginLength method 0 0 + (bytesOf respMsg).length

/-- The function `genBinaryResp`, the buffer after `AppendMessageBegin`. -/
def genBinaryResp.begin (method : Bytes) : Bytes :=
  Binary.AppendMessageBegin [] method 0 100

/-- The function `genBinaryResp`. -/
def genBinaryResp (method : Bytes) : Bytes :=
  let b : Bytes := []
  let b := Binary.AppendMessageBegin b method 0 100
  let b := b ++ bytesOf respMsg
  b

/-- The slice `req[8+len(method):]` that `GenericServiceImpl.GenericCall` prints, `none`
when the bound lies beyond the request. -/
def GenericServiceImpl.recv (method : Bytes) (req : Bytes) : Option Bytes :=
  if 8 + method.length ≤ req.length then some (req.drop (8 + method.length)) else none

/-- The method `GenericServiceImpl.GenericCall`. -/
def GenericServiceImpl.GenericCall {Ctx : Type} (_ctx : Ctx) (method : Bytes)
    (request : GoValue) : Except String CallResult :=
  match request with
  | .bytes req =>
    match GenericServiceImpl.recv method req with
    | none => .error panicSliceBounds
    | some _ =>
      let buf := genBinaryResp method
      .ok (.bytes buf, none)
  | _ => .error panicConversion

/-- The method `GenericServiceErrorImpl.GenericCall`. -/
def GenericServiceErrorImpl.GenericCall {Ctx : Type} (_ctx : Ctx) (_method : Bytes)
    (_request : GoValue) : Except String CallResult :=
  .ok (.nil, some (.errorString errResp))

/-- The method `GenericServiceBizErrorImpl.GenericCall`. -/
def GenericServiceBizErrorImpl.GenericCall {Ctx : Type} (_ctx : Ctx) (_method : Bytes)
    (_request : GoValue) : Except String CallResult :=
  .ok (.nil, some (kerrors.NewBizStatusError 404 "not found"))

/-- The method `GenericServiceMockImpl.GenericCall`. -/
def GenericServiceMockImpl.GenericCall {Ctx : Type} (_ctx : Ctx) (_method : Bytes)
    (request : GoValue) : Except String CallResult :=
  match request with
  | .bytes buf =>
    let args2 : kt.MockTestArgs := { Req := none }
    match UnmarshalFastMsg kt.MockTestArgs.codec buf args2 with
    | (_, _, _, some err) => .ok (.nil, some err)
    | (args2, mth, seqID, none) =>
      match args2.Req with
      | none => .error panicNilDeref
      | some req =>
        if req.Msg ≠ bytesOf reqMsg then
          .ok (.nil, some (.errorString ("msg is not " ++ reqMsg)))
        else
          let resp := bytesOf respMsg
          let result := { kt.NewMockTestResult with Success := some resp }
          let (buf, err) := MarshalFastMsg kt.MockTestResult.codec mth REPLY seqID result
          .ok (.bytes buf, err)
  | _ => .error panicConversion

/-- The method `MockImpl.Test`. -/
def MockImpl.Test (req : Option kt.MockReq) : Except String (Bytes × Option GoError) :=
  match req with
  | none => .error panicNilDeref
  | some req =>
    if req.Msg ≠ bytesOf reqMsg then
      .ok ([], some (.errorString ("msg is not " ++ reqMsg)))
    else .ok (bytesOf respMsg, none)

/-- The handler `MockImpl` as a `kt.Mock`. -/
def MockImpl : kt.Mock := ⟨MockImpl.Test⟩

/-- The function `testHandler`; `handler` is `none` for a value that is not a `kt.Mock`.
Returns the result struct as the call leaves it and the returned error. -/
def testHandler {Ctx : Type} (_ctx : Ctx) (handler : Option kt.Mock) (arg result : GoValue) :
    Except String (kt.MockTestResult × Option GoError) :=
  match arg with
  | .testArgs realArg =>
    match result with
    | .testResult realResult =>
      match handler with
      | none => .error panicConversion
      | some h =>
        match h.Test realArg.Req with
        | .error p => .error p
        | .ok (_, some err) => .ok (realResult, some err)
        | .ok (success, none) => .ok ({ realResult with Success := some success }, none)
    | _ => .error panicConversion
  | _ => .error panicConversion

/-! ## The frame prefix -/

theorem getUint32_byte (v : Nat) (h : v < 2 ^ 32) :
    getUint32 (byte (v / 2 ^ 24)) (byte (v / 2 ^ 16)) (byte (v / 2 ^ 8)) (byte v) = v := by
  simp only [getUint32, byte]
  omega

theorem getUint32_lt (b0 b1 b2 b3 : Byte) : getUint32 b0 b1 b2 b3 < 2 ^ 32 := by
  have h0 := b0.isLt
  have h1 := b1.isLt
  have h2 := b2.isLt
  have h3 := b3.isLt
  simp only [getUint32]
  omega

theorem i32_u32 (x : Int) (h1 : -2 ^ 31 ≤ x) (h2 : x < 2 ^ 31) : i32 (u32 x) = x := by
  unfold i32 u32
  split <;> omega

theorem u32_lt (x : Int) : u32 x < 2 ^ 32 := by
  unfold u32
  omega

theorem i32_range (n : Nat) : -2 ^ 31 ≤ i32 n ∧ i32 n < 2 ^ 31 := by
  unfold i32
  split <;> omega

theorem i32_of_lt (n : Nat) (h : n < 2 ^ 31) : i32 n = (n : Int) := by
  unfold i32
  split <;> omega

theorem header_bits : ∀ k < 256,
    ((msgVersion1 ||| (k &&& msgTypeMask)) &&& msgVersionMask = msgVersion1) ∧
    ((msgVersion1 ||| (k &&& msgTypeMask)) &&& msgTypeMask = k) ∧
    (msgVersion1 ||| (k &&& msgTypeMask)) < 2 ^ 32 := by
  decide

theorem putUint32_length (v : Nat) : (putUint32 v).length = 4 := rfl

theorem readI32_put (x : Int) (h1 : -2 ^ 31 ≤ x) (h2 : x < 2 ^ 31) (rest : Bytes) :
    Binary.ReadI32 (putUint32 (u32 x) ++ rest) = .ok (x, 4) := by
  simp only [putUint32, List.cons_append, List.nil_append, Binary.ReadI32]
  rw [getUint32_byte _ (u32_lt x), i32_u32 x h1 h2]

theorem readString_put (s : Bytes) (h : s.length < 2 ^ 31) (rest : Bytes) :
    Binary.ReadString (putUint32 (s.length % 2 ^ 32) ++ (s ++ rest)) = .ok (s, 4 + s.length) := by
  have hm : s.length % 2 ^ 32 = s.length := Nat.mod_eq_of_lt (by omega)
  have hi : i32 s.length = (s.length : Int) := i32_of_lt _ h
  simp only [Binary.ReadString, Binary.ReadI32, putUint32, List.cons_append, List.nil_append, hm]
  rw [getUint32_byte _ (by omega), hi]
  simp only [Int.toNat_ofNat, List.length_cons, List.length_append, List.drop_succ_cons,
    List.drop_zero, List.take_left']
  rw [if_neg (by omega), if_neg (by omega)]

/-- The bytes of the frame prefix, appended to `buf`. -/
theorem appendMessageBegin_eq (buf name : Bytes) (kind : TMessageType) (seq : Int) :
    Binary.AppendMessageBegin buf name kind seq =
      buf ++ (putUint32 (msgVersion1 ||| (kind &&& msgTypeMask)) ++
        (putUint32 (name.length % 2 ^ 32) ++ (name ++ putUint32 (u32 seq)))) := by
  simp [Binary.AppendMessageBegin, Binary.AppendI32, Binary.AppendString, appendUint32]

theorem appendMessageBegin_length (buf name : Bytes) (kind : TMessageType) (seq : Int) :
    (Binary.AppendMessageBegin buf name kind seq).length = buf.length + (12 + name.length) := by
  rw [appendMessageBegin_eq]
  simp [putUint32_length]
  omega

/-- Reading the prefix of a frame gives back what was written, whatever follows it. -/
theorem readMessageBegin_append (name : Bytes) (kind : TMessageType) (seq : Int)
    (hlen : name.length < 2 ^ 31) (hkind : kind < 256)
    (h1 : -2 ^ 31 ≤ seq) (h2 : seq < 2 ^ 31) (rest : Bytes) :
    Binary.ReadMessageBegin (Binary.AppendMessageBegin [] name kind seq ++ rest) =
      .ok (name, kind, seq, 12 + name.length) := by
  obtain ⟨hv, hk, hlt⟩ := header_bits kind hkind
  rw [appendMessageBegin_eq]
  generalize hH : msgVersion1 ||| (kind &&& msgTypeMask) = H at hv hk hlt
  have hs := readString_put name hlen (putUint32 (u32 seq) ++ rest)
  have hq := readI32_put seq h1 h2 rest
  simp only [List.nil_append, List.append_assoc]
  conv => lhs; arg 1; arg 1; simp only [putUint32]
  simp only [List.cons_append, List.nil_append, Binary.ReadMessageBegin]
  rw [getUint32_byte H hlt]
  simp only [hv, hk, ne_eq, not_true_eq_false, if_false, hs]
  have hd : ∀ (a b c d : Byte) (L : Nat) (R : Bytes),
      List.drop (4 + (4 + name.length)) (a :: b :: c :: d :: (putUint32 L ++ (name ++ R))) = R := by
    intro a b c d L R
    have e : a :: b :: c :: d :: (putUint32 L ++ (name ++ R)) =
        ([a, b, c, d] ++ putUint32 L ++ name) ++ R := by simp
    rw [e]
    exact List.drop_left' (by simp [putUint32_length]; omega)
  rw [hd, hq]
  simp only [Except.ok.injEq, Prod.mk.injEq, true_and]
  omega

/-- What a successful read of a frame prefix tells about the values read: the name fits a
signed 32 bit length, the kind is one byte and the sequence id is an `int32`. -/
theorem readMessageBegin_ok_bounds (buf name : Bytes) (kind : TMessageType) (seq : Int) (l : Nat)
    (h : Binary.ReadMessageBegin buf = .ok (name, kind, seq, l)) :
    name.length < 2 ^ 31 ∧ kind < 256 ∧ -2 ^ 31 ≤ seq ∧ seq < 2 ^ 31 := by
  match buf, h with
  | b0 :: b1 :: b2 :: b3 :: rest, h =>
    simp only [Binary.ReadMessageBegin] at h
    split at h
    · cases h
    · revert h
      split
      · intro h; cases h
      · rename_i nm l1 hs
        split
        · intro h; cases h
        · rename_i sq l2 hq
          intro h
          simp only [Except.ok.injEq, Prod.mk.injEq] at h
          obtain ⟨rfl, hk, rfl, -⟩ := h
          refine ⟨?_, ?_, ?_, ?_⟩
          · simp only [Binary.ReadString] at hs
            split at hs
            · cases hs
            · rename_i sz l0 hz
              split at hs
              · cases hs
              · split at hs
                · cases hs
                · simp only [Except.ok.injEq, Prod.mk.injEq] at hs
                  have hr : -2 ^ 31 ≤ sz ∧ sz < 2 ^ 31 := by
                    simp only [Binary.ReadI32] at hz
                    split at hz
                    · simp only [Except.ok.injEq, Prod.mk.injEq] at hz
                      rw [← hz.1]
                      exact i32_range _
                    · cases hz
                  rw [← hs.1]
                  have := List.length_take_le sz.toNat (List.drop 4 rest)
                  omega
          · rw [← hk]
            have : getUint32 b0 b1 b2 b3 &&& msgTypeMask ≤ msgTypeMask := Nat.and_le_right
            exact Nat.lt_succ_of_le this
          · simp only [Binary.ReadI32] at hq
            split at hq
            · simp only [Except.ok.injEq, Prod.mk.injEq] at hq
              rw [← hq.1]
              exact (i32_range _).1
            · cases hq
          · simp only [Binary.ReadI32] at hq
            split at hq
            · simp only [Except.ok.injEq, Prod.mk.injEq] at hq
              rw [← hq.1]
              exact (i32_range _).2
            · cases hq
  | [], h => simp [Binary.ReadMessageBegin] at h
  | [_], h => simp [Binary.ReadMessageBegin] at h
  | [_, _], h => simp [Binary.ReadMessageBegin] at h
  | [_, _, _], h => simp [Binary.ReadMessageBegin] at h

theorem store_store (n m : Nat) (h d : Bytes) (hn : h.length = n) (hm : d.length = m) :
    store (store (List.replicate (n + m) 0) 0 h) h.length d = h ++ d := by
  simp only [store, List.take_zero, List.nil_append, Nat.zero_add]
  rw [List.take_left' rfl]
  rw [List.drop_eq_nil_of_le]
  · simp
  · simp
    omega

/-- A frame made by `MarshalFastMsg` is the frame prefix followed by the encoded struct,
when the encoded length the codec announces is the length it writes. -/
theorem marshalFastMsg_eq {α : Type} (c : FastCodec α) (method : Bytes) (t : TMessageType)
    (seq : Int) (msg : α) (hm : method ≠ [])
    (hl : c.BLength msg = (c.FastWriteNocopy msg).length) :
    MarshalFastMsg c method t seq msg =
      (Binary.AppendMessageBegin [] method t seq ++ c.FastWriteNocopy msg, none) := by
  simp only [MarshalFastMsg, if_neg hm, Prod.mk.injEq, and_true]
  apply store_store
  · rw [appendMessageBegin_length]
    simp [Binary.MessageBeginLength]
    omega
  · exact hl.symm

/-! ## The generated struct codecs -/

theorem drop_append_of_length (n : Nat) (pre rest : Bytes) (h : pre.length = n) :
    List.drop n (pre ++ rest) = rest := List.drop_left' h

theorem readFieldBegin_stop (rest : Bytes) :
    Binary.ReadFieldBegin (byte STOP :: rest) = .ok (STOP, 0, 1) := by
  simp [Binary.ReadFieldBegin, byte, STOP]

theorem mockReq_fastReadLoop_write (fuel : Nat) (p r : kt.MockReq) (h : r.Msg.length < 2 ^ 31)
    (rest : Bytes) :
    kt.MockReq.fastReadLoop (fuel + 2) p (r.FastWriteNocopy ++ rest) = .ok (r, r.BLength) := by
  have hs := readString_put r.Msg h (byte STOP :: rest)
  have hd : List.drop (3 + (4 + r.Msg.length))
      (byte STRING :: byte (1 / 256) :: byte 1 ::
        (putUint32 (r.Msg.length % 2 ^ 32) ++ (r.Msg ++ byte STOP :: rest))) = byte STOP :: rest := by
    have e : byte STRING :: byte (1 / 256) :: byte 1 ::
        (putUint32 (r.Msg.length % 2 ^ 32) ++ (r.Msg ++ byte STOP :: rest)) =
        ([byte STRING, byte (1 / 256), byte 1] ++ putUint32 (r.Msg.length % 2 ^ 32) ++ r.Msg) ++
          (byte STOP :: rest) := by simp
    rw [e]
    exact List.drop_left' (by simp [putUint32_length]; omega)
  have hf : ∀ tl : Bytes, Binary.ReadFieldBegin (byte STRING :: byte (1 / 256) :: byte 1 :: tl) =
      .ok (STRING, 1, 3) := by
    intro tl
    rfl
  simp only [kt.MockReq.FastWriteNocopy, Binary.AppendString, appendUint32, kt.fieldBegin,
    List.append_assoc, List.cons_append, List.nil_append, List.singleton_append]
  rw [kt.MockReq.fastReadLoop]
  simp only [hf, List.drop_succ_cons, List.drop_zero, hs]
  rw [if_neg (by decide), if_pos (by decide)]
  simp only [hd]
  rw [kt.MockReq.fastReadLoop]
  simp only [readFieldBegin_stop, if_true, kt.MockReq.BLength]

theorem mockReq_fastRead_write (r : kt.MockReq) (h : r.Msg.length < 2 ^ 31) (rest : Bytes) :
    kt.MockReq.FastRead kt.NewMockReq (r.FastWriteNocopy ++ rest) = .ok (r, r.BLength) := by
  have hl : ∃ k, (r.FastWriteNocopy ++ rest).length + 1 = k + 2 := by
    refine ⟨(r.FastWriteNocopy ++ rest).length - 1, ?_⟩
    simp [kt.MockReq.FastWriteNocopy]
    omega
  obtain ⟨k, hk⟩ := hl
  rw [kt.MockReq.FastRead, hk]
  exact mockReq_fastReadLoop_write k _ r h rest

theorem mockReq_write_length (r : kt.MockReq) : r.FastWriteNocopy.length = r.BLength := by
  simp [kt.MockReq.FastWriteNocopy, kt.MockReq.BLength, Binary.AppendString, appendUint32,
    kt.fieldBegin, putUint32_length]
  omega

theorem mockTestArgs_fastRead_write (p : kt.MockTestArgs) (r : kt.MockReq)
    (h : r.Msg.length < 2 ^ 31) (rest : Bytes) :
    kt.MockTestArgs.FastRead p ((kt.MockTestArgs.mk (some r)).FastWriteNocopy ++ rest) =
      .ok (⟨some r⟩, (kt.MockTestArgs.mk (some r)).BLength) := by
  have hf : ∀ tl : Bytes, Binary.ReadFieldBegin (byte STRUCT :: byte (1 / 256) :: byte 1 :: tl) =
      .ok (STRUCT, 1, 3) := by
    intro tl
    rfl
  have hr := mockReq_fastRead_write r h (byte STOP :: rest)
  have hd : List.drop (3 + r.BLength)
      (byte STRUCT :: byte (1 / 256) :: byte 1 :: (r.FastWriteNocopy ++ byte STOP :: rest)) =
        byte STOP :: rest := by
    have e : byte STRUCT :: byte (1 / 256) :: byte 1 :: (r.FastWriteNocopy ++ byte STOP :: rest) =
        ([byte STRUCT, byte (1 / 256), byte 1] ++ r.FastWriteNocopy) ++ (byte STOP :: rest) := by
      simp
    rw [e]
    exact List.drop_left' (by simp [mockReq_write_length]; omega)
  have hl : ∃ k, ((kt.MockTestArgs.mk (some r)).FastWriteNocopy ++ rest).length + 1 = k + 2 := by
    refine ⟨((kt.MockTestArgs.mk (some r)).FastWriteNocopy ++ rest).length - 1, ?_⟩
    simp [kt.MockTestArgs.FastWriteNocopy]
    omega
  obtain ⟨k, hk⟩ := hl
  rw [kt.MockTestArgs.FastRead, hk]
  simp only [kt.MockTestArgs.FastWriteNocopy, kt.fieldBegin, List.append_assoc, List.cons_append,
    List.nil_append, List.singleton_append]
  rw [kt.MockTestArgs.fastReadLoop]
  simp only [hf, List.drop_succ_cons, List.drop_zero, hr]
  rw [if_neg (by decide), if_pos (by decide)]
  simp only [hd]
  rw [kt.MockTestArgs.fastReadLoop]
  simp only [readFieldBegin_stop, if_true, kt.MockTestArgs.BLength]

theorem mockTestArgs_write_length (p : kt.MockTestArgs) : p.FastWriteNocopy.length = p.BLength := by
  cases p with
  | mk req =>
    cases req with
    | none => simp [kt.MockTestArgs.FastWriteNocopy, kt.MockTestArgs.BLength, kt.fieldBegin]
    | some r =>
      simp [kt.MockTestArgs.FastWriteNocopy, kt.MockTestArgs.BLength, kt.fieldBegin,
        mockReq_write_length]
      omega

theorem mockTestResult_fastRead_write (p : kt.MockTestResult) (s : Bytes)
    (h : s.length < 2 ^ 31) (rest : Bytes) :
    kt.MockTestResult.FastRead p ((kt.MockTestResult.mk (some s)).FastWriteNocopy ++ rest) =
      .ok (⟨some s⟩, (kt.MockTestResult.mk (some s)).BLength) := by
  have hs := readString_put s h (byte STOP :: rest)
  have hd : List.drop (3 + (4 + s.length))
      (byte STRING :: byte (0 / 256) :: byte 0 ::
        (putUint32 (s.length % 2 ^ 32) ++ (s ++ byte STOP :: rest))) = byte STOP :: rest := by
    have e : byte STRING :: byte (0 / 256) :: byte 0 ::
        (putUint32 (s.length % 2 ^ 32) ++ (s ++ byte STOP :: rest)) =
        ([byte STRING, byte (0 / 256), byte 0] ++ putUint32 (s.length % 2 ^ 32) ++ s) ++
          (byte STOP :: rest) := by simp
    rw [e]
    exact List.drop_left' (by simp [putUint32_length]; omega)
  have hf : ∀ tl : Bytes, Binary.ReadFieldBegin (byte STRING :: byte (0 / 256) :: byte 0 :: tl) =
      .ok (STRING, 0, 3) := by
    intro tl
    rfl
  have hl : ∃ k, ((kt.MockTestResult.mk (some s)).FastWriteNocopy ++ rest).length + 1 = k + 2 := by
    refine ⟨((kt.MockTestResult.mk (some s)).FastWriteNocopy ++ rest).length - 1, ?_⟩
    simp [kt.MockTestResult.FastWriteNocopy, Binary.AppendString, appendUint32, kt.fieldBegin]
  obtain ⟨k, hk⟩ := hl
  rw [kt.MockTestResult.FastRead, hk]
  simp only [kt.MockTestResult.FastWriteNocopy, Binary.AppendString, appendUint32, kt.fieldBegin,
    List.append_assoc, List.cons_append, List.nil_append, List.singleton_append]
  rw [kt.MockTestResult.fastReadLoop]
  simp only [hf, List.drop_succ_cons, List.drop_zero, hs]
  rw [if_neg (by decide), if_pos (by decide)]
  simp only [hd]
  rw [kt.MockTestResult.fastReadLoop]
  simp only [readFieldBegin_stop, if_true, kt.MockTestResult.BLength]

theorem mockTestResult_write_length (p : kt.MockTestResult) :
    p.FastWriteNocopy.length = p.BLength := by
  cases p with
  | mk success =>
    cases success with
    | none => simp [kt.MockTestResult.FastWriteNocopy, kt.MockTestResult.BLength]
    | some s =>
      simp [kt.MockTestResult.FastWriteNocopy, kt.MockTestResult.BLength, Binary.AppendString,
        appendUint32, kt.fieldBegin, putUint32_length]
      omega

/-! ## Frames of typed messages -/

/-- A frame that `MarshalFastMsg` returns without an error has a non-empty method name. -/
theorem marshalFastMsg_none {α : Type} (c : FastCodec α) (method : Bytes) (t : TMessageType)
    (seq : Int) (msg : α) (h : (MarshalFastMsg c method t seq msg).2 = none) : method ≠ [] := by
  intro hm
  simp [MarshalFastMsg, hm] at h

/-- When `UnmarshalFastMsg` returns no error, the method name and the sequence id it
returns are those of the frame prefix. -/
theorem unmarshalFastMsg_none {α : Type} (c : FastCodec α) (b : Bytes) (msg m2 : α)
    (mth : Bytes) (seq : Int) (h : UnmarshalFastMsg c b msg = (m2, mth, seq, none)) :
    ∃ kind i, Binary.ReadMessageBegin b = .ok (mth, kind, seq, i) := by
  unfold UnmarshalFastMsg at h
  split at h
  · simp at h
  · rename_i method msgType sq i hr
    refine ⟨msgType, i, ?_⟩
    simp only at h
    split at h
    · split at h <;> simp at h
    · split at h
      · simp at h
      · simp only [Prod.mk.injEq, and_true] at h
        rw [hr, h.2.1, h.2.2]

/-- When the frame prefix cannot be read, `UnmarshalFastMsg` returns that error. -/
theorem unmarshalFastMsg_prefix_error {α : Type} (c : FastCodec α) (b : Bytes) (msg : α)
    (e : GoError) (h : Binary.ReadMessageBegin b = .error e) :
    UnmarshalFastMsg c b msg = (msg, [], 0, some e) := by
  simp [UnmarshalFastMsg, h]

/-- Reading back the frame of a `MockTestArgs` gives the arguments, the method name and
the sequence id. -/
theorem unmarshal_marshal_args (method : Bytes) (kind : TMessageType) (seq : Int)
    (r : kt.MockReq) (p : kt.MockTestArgs) (hm : method ≠ []) (hlen : method.length < 2 ^ 31)
    (hkind : kind < 256) (hex : kind ≠ EXCEPTION) (h1 : -2 ^ 31 ≤ seq) (h2 : seq < 2 ^ 31)
    (hr : r.Msg.length < 2 ^ 31) :
    UnmarshalFastMsg kt.MockTestArgs.codec
      (MarshalFastMsg kt.MockTestArgs.codec method kind seq ⟨some r⟩).1 p =
        (⟨some r⟩, method, seq, none) := by
  have hb : kt.MockTestArgs.codec.BLength ⟨some r⟩ =
      (kt.MockTestArgs.codec.FastWriteNocopy ⟨some r⟩).length :=
    (mockTestArgs_write_length ⟨some r⟩).symm
  rw [marshalFastMsg_eq _ _ _ _ _ hm hb]
  simp only [UnmarshalFastMsg, readMessageBegin_append method kind seq hlen hkind h1 h2]
  rw [if_neg hex]
  rw [drop_append_of_length _ _ _ (by rw [appendMessageBegin_length]; simp)]
  have := mockTestArgs_fastRead_write p r hr []
  simp only [List.append_nil] at this
  simp only [kt.MockTestArgs.codec, this]

/-- Reading back the frame of a `MockTestResult` with a set `Success` gives the result,
the method name and the sequence id. -/
theorem unmarshal_marshal_result (method : Bytes) (kind : TMessageType) (seq : Int)
    (s : Bytes) (p : kt.MockTestResult) (hm : method ≠ []) (hlen : method.length < 2 ^ 31)
    (hkind : kind < 256) (hex : kind ≠ EXCEPTION) (h1 : -2 ^ 31 ≤ seq) (h2 : seq < 2 ^ 31)
    (hs : s.length < 2 ^ 31) :
    UnmarshalFastMsg kt.MockTestResult.codec
      (MarshalFastMsg kt.MockTestResult.codec method kind seq ⟨some s⟩).1 p =
        (⟨some s⟩, method, seq, none) := by
  have hb : kt.MockTestResult.codec.BLength ⟨some s⟩ =
      (kt.MockTestResult.codec.FastWriteNocopy ⟨some s⟩).length :=
    (mockTestResult_write_length ⟨some s⟩).symm
  rw [marshalFastMsg_eq _ _ _ _ _ hm hb]
  simp only [UnmarshalFastMsg, readMessageBegin_append method kind seq hlen hkind h1 h2]
  rw [if_neg hex]
  rw [drop_append_of_length _ _ _ (by rw [appendMessageBegin_length]; simp)]
  have := mockTestResult_fastRead_write p s hs []
  simp only [List.append_nil] at this
  simp only [kt.MockTestResult.codec, this]

/-- The path of `GenericServiceMockImpl.GenericCall` once the request is decoded. -/
theorem mockGenericCall_decoded {Ctx : Type} (ctx : Ctx) (method buf : Bytes)
    (args2 : kt.MockTestArgs) (mth : Bytes) (seqID : Int) (req : kt.MockReq)
    (hu : UnmarshalFastMsg kt.MockTestArgs.codec buf ⟨none⟩ = (args2, mth, seqID, none))
    (hreq : args2.Req = some req) :
    GenericServiceMockImpl.GenericCall ctx method (.bytes buf) =
      if req.Msg ≠ bytesOf reqMsg then
        .ok (.nil, some (.errorString ("msg is not " ++ reqMsg)))
      else
        .ok (.bytes (MarshalFastMsg kt.MockTestResult.codec mth REPLY seqID
            ⟨some (bytesOf respMsg)⟩).1,
          (MarshalFastMsg kt.MockTestResult.codec mth REPLY seqID ⟨some (bytesOf respMsg)⟩).2) := by
  simp only [GenericServiceMockImpl.GenericCall, hu, hreq, kt.NewMockTestResult]

theorem respMsg_length : (bytesOf respMsg).length < 2 ^ 31 := by decide

theorem reqMsg_length : (bytesOf reqMsg).length < 2 ^ 31 := by decide

theorem reply_kind : REPLY < 256 ∧ REPLY ≠ EXCEPTION ∧ CALL < 256 ∧ CALL ≠ EXCEPTION := by decide

/-! ## Truncated frame prefixes -/

theorem readI32_short (buf : Bytes) (h : buf.length < 4) :
    Binary.ReadI32 buf = .error errReadI32 := by
  match buf, h with
  | [], _ => rfl
  | [_], _ => rfl
  | [_, _], _ => rfl
  | [_, _, _], _ => rfl
  | _ :: _ :: _ :: _ :: _, h => exact absurd h (by simp only [List.length_cons]; omega)

theorem readString_short (buf : Bytes) (h : buf.length < 4) :
    Binary.ReadString buf = .error errReadStr := by
  simp [Binary.ReadString, readI32_short buf h]

/-- Reading a string from a truncated buffer either fails or passes over the whole
string. -/
theorem readString_take (s tail : Bytes) (k : Nat) (h : s.length < 2 ^ 31) :
    (∃ e, Binary.ReadString ((putUint32 (s.length % 2 ^ 32) ++ (s ++ tail)).take k) = .error e) ∨
    (∃ nm, Binary.ReadString ((putUint32 (s.length % 2 ^ 32) ++ (s ++ tail)).take k) =
      .ok (nm, 4 + s.length)) := by
  by_cases hk : k < 4
  · left
    exact ⟨_, readString_short _ (by rw [List.length_take]; omega)⟩
  · obtain ⟨j, rfl⟩ : ∃ j, k = j + 4 := ⟨k - 4, by omega⟩
    have hm : s.length % 2 ^ 32 = s.length := Nat.mod_eq_of_lt (by omega)
    have hi : i32 s.length = (s.length : Int) := i32_of_lt _ h
    simp only [putUint32, List.cons_append, List.nil_append, List.take_succ_cons,
      Binary.ReadString, Binary.ReadI32, hm]
    rw [getUint32_byte _ (by omega), hi]
    rw [if_neg (by omega)]
    simp only [Int.toNat_ofNat]
    split
    · left
      exact ⟨_, rfl⟩
    · right
      exact ⟨_, rfl⟩

/-- A strict prefix of a frame prefix does not read as a frame prefix. -/
theorem readMessageBegin_truncated (name : Bytes) (kind : TMessageType) (seq : Int) (k : Nat)
    (hlen : name.length < 2 ^ 31)
    (hk : k < (Binary.AppendMessageBegin [] name kind seq).length) :
    ∃ e, Binary.ReadMessageBegin ((Binary.AppendMessageBegin [] name kind seq).take k) =
      .error e := by
  rw [appendMessageBegin_length] at hk
  simp only [List.length_nil, Nat.zero_add] at hk
  rw [appendMessageBegin_eq, List.nil_append]
  by_cases hk4 : k < 4
  · refine ⟨errReadMessage, ?_⟩
    generalize hb : (putUint32 (msgVersion1 ||| kind &&& msgTypeMask) ++
      (putUint32 (name.length % 2 ^ 32) ++ (name ++ putUint32 (u32 seq)))).take k = b
    have hl : b.length < 4 := by
      rw [← hb, List.length_take]
      omega
    match b, hl with
    | [], _ => rfl
    | [_], _ => rfl
    | [_, _], _ => rfl
    | [_, _, _], _ => rfl
    | _ :: _ :: _ :: _ :: _, h => exact absurd h (by simp only [List.length_cons]; omega)
  · obtain ⟨j, rfl⟩ : ∃ j, k = j + 4 := ⟨k - 4, by omega⟩
    generalize msgVersion1 ||| kind &&& msgTypeMask = H
    have e : (putUint32 H ++
        (putUint32 (name.length % 2 ^ 32) ++ (name ++ putUint32 (u32 seq)))).take (j + 4) =
        byte (H / 2 ^ 24) :: byte (H / 2 ^ 16) :: byte (H / 2 ^ 8) :: byte H ::
          (putUint32 (name.length % 2 ^ 32) ++ (name ++ putUint32 (u32 seq))).take j := rfl
    rw [e]
    simp only [Binary.ReadMessageBegin]
    split
    · exact ⟨_, rfl⟩
    · rcases readString_take name (putUint32 (u32 seq)) j hlen with ⟨e, he⟩ | ⟨nm, hn⟩
      · rw [he]
        exact ⟨_, rfl⟩
      · rw [hn]
        simp only
        rw [readI32_short]
        · exact ⟨_, rfl⟩
        · simp only [List.length_drop, List.length_cons, List.length_take, List.length_append,
            putUint32_length]
          omega

/-! ## The claims -/

/-- Claim C1: reading the message begin from the bytes `AppendMessageBegin` produces on an
empty buffer returns the method name, the message kind and the sequence id that were
written, and the number of bytes consumed is `MessageBeginLength`; for every method name
whose length fits the signed 32 bit size field, every kind of the one-byte kind field
(CALL, REPLY, EXCEPTION and ONEWAY among them) and every `int32` sequence id. -/
theorem messageBegin_roundtrip (method : Bytes) (kind : TMessageType) (seqId : Int)
    (hlen : method.length < 2 ^ 31) (hkind : kind < 256)
    (h1 : -2 ^ 31 ≤ seqId) (h2 : seqId < 2 ^ 31) :
    Binary.ReadMessageBegin (Binary.AppendMessageBegin [] method kind seqId) =
      .ok (method, kind, seqId, Binary.MessageBeginLength method kind seqId) := by
  have h := readMessageBegin_append method kind seqId hlen hkind h1 h2 []
  rw [List.append_nil] at h
  rw [h, Binary.MessageBeginLength]
  simp only [Except.ok.injEq, Prod.mk.injEq, true_and]
  omega

theorem messageBegin_roundtrip_witness :
    Binary.ReadMessageBegin (Binary.AppendMessageBegin [] (bytesOf "Test") CALL 100) =
      .ok (bytesOf "Test", CALL, 100, Binary.MessageBeginLength (bytesOf "Test") CALL 100) :=
  messageBegin_roundtrip (bytesOf "Test") CALL 100 (by decide) (by decide) (by decide) (by decide)

/-- Claim C2: given the encoded CALL frame of a `MockTestArgs` whose `Req.Msg` is
"Hello Kitex", `GenericServiceMockImpl.GenericCall` returns a nil error and a frame whose
message kind reads back as REPLY and whose payload decodes to a `MockTestResult` with
`Success` equal to "Hi, I am Kitex", under the method name and sequence id of the call. -/
theorem mock_generic_call_replies {Ctx : Type} (ctx : Ctx) (method : Bytes) (seqId : Int)
    (args : kt.MockTestArgs) (req : kt.MockReq) (request : Bytes)
    (hreq : args.Req = some req) (hmsg : req.Msg = bytesOf reqMsg)
    (henc : MarshalFastMsg kt.MockTestArgs.codec method CALL seqId args = (request, none))
    (hlen : method.length < 2 ^ 31) (h1 : -2 ^ 31 ≤ seqId) (h2 : seqId < 2 ^ 31) :
    ∃ frame l,
      GenericServiceMockImpl.GenericCall ctx method (.bytes request) = .ok (.bytes frame, none) ∧
      Binary.ReadMessageBegin frame = .ok (method, REPLY, seqId, l) ∧
      UnmarshalFastMsg kt.MockTestResult.codec frame kt.NewMockTestResult =
        (⟨some (bytesOf respMsg)⟩, method, seqId, none) := by
  have hm : method ≠ [] := marshalFastMsg_none _ _ _ _ _ (by rw [henc])
  have hargs : args = ⟨some req⟩ := by
    cases args
    simp only at hreq
    rw [hreq]
  have hrq : request = (MarshalFastMsg kt.MockTestArgs.codec method CALL seqId ⟨some req⟩).1 := by
    rw [← hargs, henc]
  have hu := unmarshal_marshal_args method CALL seqId req ⟨none⟩ hm hlen reply_kind.2.2.1
    reply_kind.2.2.2 h1 h2 (by rw [hmsg]; exact reqMsg_length)
  rw [← hrq] at hu
  have hg := mockGenericCall_decoded ctx method request _ _ _ req hu rfl
  rw [if_neg (by simp [hmsg])] at hg
  have hb : kt.MockTestResult.codec.BLength ⟨some (bytesOf respMsg)⟩ =
      (kt.MockTestResult.codec.FastWriteNocopy ⟨some (bytesOf respMsg)⟩).length :=
    (mockTestResult_write_length ⟨some (bytesOf respMsg)⟩).symm
  have hmar := marshalFastMsg_eq kt.MockTestResult.codec method REPLY seqId
    ⟨some (bytesOf respMsg)⟩ hm hb
  refine ⟨(MarshalFastMsg kt.MockTestResult.codec method REPLY seqId
    ⟨some (bytesOf respMsg)⟩).1, 12 + method.length, ?_, ?_, ?_⟩
  · rw [hg, hmar]
  · rw [hmar]
    exact readMessageBegin_append method REPLY seqId hlen reply_kind.1 h1 h2 _
  · exact unmarshal_marshal_result method REPLY seqId _ _ hm hlen reply_kind.1 reply_kind.2.1
      h1 h2 respMsg_length

theorem mock_generic_call_replies_witness :
    ∃ frame l,
      GenericServiceMockImpl.GenericCall () (bytesOf "Test")
        (.bytes (MarshalFastMsg kt.MockTestArgs.codec (bytesOf "Test") CALL 100
          ⟨some ⟨bytesOf reqMsg⟩⟩).1) = .ok (.bytes frame, none) ∧
      Binary.ReadMessageBegin frame = .ok (bytesOf "Test", REPLY, 100, l) ∧
      UnmarshalFastMsg kt.MockTestResult.codec frame kt.NewMockTestResult =
        (⟨some (bytesOf respMsg)⟩, bytesOf "Test", 100, none) :=
  mock_generic_call_replies () (bytesOf "Test") 100 ⟨some ⟨bytesOf reqMsg⟩⟩ ⟨bytesOf reqMsg⟩
    (MarshalFastMsg kt.MockTestArgs.codec (bytesOf "Test") CALL 100 ⟨some ⟨bytesOf reqMsg⟩⟩).1
    rfl rfl (by decide) (by decide) (by decide) (by decide)

/-- Claim C3: whenever `GenericServiceMockImpl.GenericCall` succeeds on a request, the
request and the response are byte frames, and the method name and the sequence id read
from the returned frame are those read from the request frame. -/
theorem mock_generic_call_echoes {Ctx : Type} (ctx : Ctx) (method : Bytes) (request : GoValue)
    (response : GoValue)
    (h : GenericServiceMockImpl.GenericCall ctx method request = .ok (response, none)) :
    ∃ buf frame mth seqID kind l kind2 l2,
      request = .bytes buf ∧ response = .bytes frame ∧
      Binary.ReadMessageBegin buf = .ok (mth, kind, seqID, l) ∧
      Binary.ReadMessageBegin frame = .ok (mth, kind2, seqID, l2) := by
  cases request with
  | bytes buf =>
    generalize hu : UnmarshalFastMsg kt.MockTestArgs.codec buf ⟨none⟩ = u at h
    obtain ⟨args2, mth, seqID, err⟩ := u
    cases err with
    | some e => simp [GenericServiceMockImpl.GenericCall, hu] at h
    | none =>
      obtain ⟨kind, l, hr⟩ := unmarshalFastMsg_none _ _ _ _ _ _ hu
      obtain ⟨hlen, -, h1, h2⟩ := readMessageBegin_ok_bounds _ _ _ _ _ hr
      cases hreq : args2.Req with
      | none => simp [GenericServiceMockImpl.GenericCall, hu, hreq] at h
      | some req =>
        rw [mockGenericCall_decoded ctx method buf args2 mth seqID req hu hreq] at h
        split at h
        · simp at h
        · simp only [Except.ok.injEq, Prod.mk.injEq] at h
          have hm : mth ≠ [] := marshalFastMsg_none _ _ _ _ _ h.2
          have hb : kt.MockTestResult.codec.BLength ⟨some (bytesOf respMsg)⟩ =
              (kt.MockTestResult.codec.FastWriteNocopy ⟨some (bytesOf respMsg)⟩).length :=
            (mockTestResult_write_length ⟨some (bytesOf respMsg)⟩).symm
          have hmar := marshalFastMsg_eq kt.MockTestResult.codec mth REPLY seqID
            ⟨some (bytesOf respMsg)⟩ hm hb
          refine ⟨buf, _, mth, seqID, kind, l, REPLY, 12 + mth.length, rfl, h.1.symm, hr, ?_⟩
          rw [hmar]
          exact readMessageBegin_append mth REPLY seqID hlen reply_kind.1 h1 h2 _
  | nil => simp [GenericServiceMockImpl.GenericCall] at h
  | testArgs a => simp [GenericServiceMockImpl.GenericCall] at h
  | testResult r => simp [GenericServiceMockImpl.GenericCall] at h
  | other t => simp [GenericServiceMockImpl.GenericCall] at h

theorem mock_generic_call_echoes_witness :
    ∃ buf frame mth seqID kind l kind2 l2,
      GoValue.bytes (MarshalFastMsg kt.MockTestArgs.codec (bytesOf "Test") CALL 100
          ⟨some ⟨bytesOf reqMsg⟩⟩).1 = .bytes buf ∧
      GoValue.bytes (MarshalFastMsg kt.MockTestResult.codec (bytesOf "Test") REPLY 100
          ⟨some (bytesOf respMsg)⟩).1 = .bytes frame ∧
      Binary.ReadMessageBegin buf = .ok (mth, kind, seqID, l) ∧
      Binary.ReadMessageBegin frame = .ok (mth, kind2, seqID, l2) :=
  mock_generic_call_echoes () (bytesOf "Test")
    (.bytes (MarshalFastMsg kt.MockTestArgs.codec (bytesOf "Test") CALL 100
      ⟨some ⟨bytesOf reqMsg⟩⟩).1)
    (.bytes (MarshalFastMsg kt.MockTestResult.codec (bytesOf "Test") REPLY 100
      ⟨some (bytesOf respMsg)⟩).1) rfl

/-- Claim C4: for every request frame that decodes without error to arguments whose
`Req.Msg` differs from "Hello Kitex", `GenericServiceMockImpl.GenericCall` returns a nil
response together with the error "msg is not Hello Kitex", which is not a business status
error; no reply frame is returned. -/
theorem mock_generic_call_rejects {Ctx : Type} (ctx : Ctx) (method buf : Bytes)
    (args2 : kt.MockTestArgs) (mth : Bytes) (seqID : Int) (req : kt.MockReq)
    (hu : UnmarshalFastMsg kt.MockTestArgs.codec buf { Req := none } =
      (args2, mth, seqID, none))
    (hreq : args2.Req = some req) (hmsg : req.Msg ≠ bytesOf reqMsg) :
    GenericServiceMockImpl.GenericCall ctx method (.bytes buf) =
        .ok (.nil, some (.errorString "msg is not Hello Kitex")) ∧
      kerrors.IsBizStatusError (.errorString "msg is not Hello Kitex") = false := by
  refine ⟨?_, rfl⟩
  rw [mockGenericCall_decoded ctx method buf args2 mth seqID req hu hreq, if_pos hmsg]
  rfl

theorem mock_generic_call_rejects_witness :
    GenericServiceMockImpl.GenericCall () (bytesOf "Test")
        (.bytes (MarshalFastMsg kt.MockTestArgs.codec (bytesOf "Test") CALL 7
          ⟨some ⟨bytesOf "wrong"⟩⟩).1) =
        .ok (.nil, some (.errorString "msg is not Hello Kitex")) ∧
      kerrors.IsBizStatusError (.errorString "msg is not Hello Kitex") = false :=
  mock_generic_call_rejects () (bytesOf "Test")
    (MarshalFastMsg kt.MockTestArgs.codec (bytesOf "Test") CALL 7 ⟨some ⟨bytesOf "wrong"⟩⟩).1
    ⟨some ⟨bytesOf "wrong"⟩⟩ (bytesOf "Test") 7 ⟨bytesOf "wrong"⟩ (by decide) rfl (by decide)

/-- Claim C5: for every context, method name and request,
`GenericServiceBizErrorImpl.GenericCall` returns a nil response and a business status
error whose code is 404 and whose message is "not found". -/
theorem biz_error_generic_call {Ctx : Type} (ctx : Ctx) (method : Bytes) (request : GoValue) :
    ∃ err, GenericServiceBizErrorImpl.GenericCall ctx method request = .ok (.nil, some err) ∧
      kerrors.IsBizStatusError err = true ∧
      kerrors.BizStatusCode err = some 404 ∧ kerrors.BizMessage err = some "not found" :=
  ⟨kerrors.NewBizStatusError 404 "not found", rfl, rfl, rfl, rfl⟩

/-- Claim C6: on the encoded CALL frame of a request, `GenericServiceMockImpl.GenericCall`
succeeds exactly when `testHandler` with `MockImpl` succeeds on the same arguments, and
when both succeed the frame the generic handler returns is, byte for byte, the frame
`MarshalFastMsg` makes of the method name, REPLY, the sequence id and the result that
`testHandler` filled in. -/
theorem generic_agrees_with_typed {Ctx : Type} (ctx : Ctx) (method : Bytes) (seqId : Int)
    (req : kt.MockReq) (request : Bytes)
    (henc : MarshalFastMsg kt.MockTestArgs.codec method CALL seqId ⟨some req⟩ = (request, none))
    (hlen : method.length < 2 ^ 31) (h1 : -2 ^ 31 ≤ seqId) (h2 : seqId < 2 ^ 31)
    (hmsg : req.Msg.length < 2 ^ 31) :
    ((∃ resp, GenericServiceMockImpl.GenericCall ctx method (.bytes request) = .ok (resp, none)) ↔
      (∃ r, testHandler ctx (some MockImpl) (.testArgs ⟨some req⟩)
        (.testResult kt.NewMockTestResult) = .ok (r, none))) ∧
    (∀ resp r,
      GenericServiceMockImpl.GenericCall ctx method (.bytes request) = .ok (resp, none) →
      testHandler ctx (some MockImpl) (.testArgs ⟨some req⟩)
        (.testResult kt.NewMockTestResult) = .ok (r, none) →
      MarshalFastMsg kt.MockTestResult.codec method REPLY seqId r =
        ((MarshalFastMsg kt.MockTestResult.codec method REPLY seqId r).1, none) ∧
      resp = .bytes (MarshalFastMsg kt.MockTestResult.codec method REPLY seqId r).1) := by
  have hm : method ≠ [] := marshalFastMsg_none _ _ _ _ _ (by rw [henc])
  have hrq : request = (MarshalFastMsg kt.MockTestArgs.codec method CALL seqId ⟨some req⟩).1 := by
    rw [henc]
  have hu := unmarshal_marshal_args method CALL seqId req ⟨none⟩ hm hlen reply_kind.2.2.1
    reply_kind.2.2.2 h1 h2 hmsg
  rw [← hrq] at hu
  have hg := mockGenericCall_decoded ctx method request _ _ _ req hu rfl
  have hb : kt.MockTestResult.codec.BLength ⟨some (bytesOf respMsg)⟩ =
      (kt.MockTestResult.codec.FastWriteNocopy ⟨some (bytesOf respMsg)⟩).length :=
    (mockTestResult_write_length ⟨some (bytesOf respMsg)⟩).symm
  have hmar := marshalFastMsg_eq kt.MockTestResult.codec method REPLY seqId
    ⟨some (bytesOf respMsg)⟩ hm hb
  by_cases hq : req.Msg = bytesOf reqMsg
  · rw [if_neg (by simp [hq])] at hg
    have ht : testHandler ctx (some MockImpl) (.testArgs ⟨some req⟩)
        (.testResult kt.NewMockTestResult) = .ok (⟨some (bytesOf respMsg)⟩, none) := by
      simp [testHandler, MockImpl, MockImpl.Test, hq, kt.NewMockTestResult]
    refine ⟨⟨fun _ => ⟨_, ht⟩, fun _ => ⟨_, by rw [hg, hmar]⟩⟩, ?_⟩
    intro resp r hresp hr
    rw [ht] at hr
    simp only [Except.ok.injEq, Prod.mk.injEq, and_true] at hr
    subst hr
    rw [hg, hmar] at hresp
    simp only [Except.ok.injEq, Prod.mk.injEq, and_true] at hresp
    rw [hmar]
    exact ⟨rfl, hresp.symm⟩
  · rw [if_pos hq] at hg
    have ht : testHandler ctx (some MockImpl) (.testArgs ⟨some req⟩)
        (.testResult kt.NewMockTestResult) =
          .ok (kt.NewMockTestResult, some (.errorString ("msg is not " ++ reqMsg))) := by
      simp [testHandler, MockImpl, MockImpl.Test, hq]
    refine ⟨⟨?_, ?_⟩, ?_⟩
    · rintro ⟨resp, hresp⟩
      rw [hg] at hresp
      simp at hresp
    · rintro ⟨r, hr⟩
      rw [ht] at hr
      simp at hr
    · intro resp r hresp
      rw [hg] at hresp
      simp at hresp

theorem generic_agrees_with_typed_witness :
    ((∃ resp, GenericServiceMockImpl.GenericCall () (bytesOf "Test")
        (.bytes (MarshalFastMsg kt.MockTestArgs.codec (bytesOf "Test") CALL 100
          ⟨some ⟨bytesOf reqMsg⟩⟩).1) = .ok (resp, none)) ↔
      (∃ r, testHandler () (some MockImpl) (.testArgs ⟨some ⟨bytesOf reqMsg⟩⟩)
        (.testResult kt.NewMockTestResult) = .ok (r, none))) ∧
    (∀ resp r,
      GenericServiceMockImpl.GenericCall () (bytesOf "Test")
        (.bytes (MarshalFastMsg kt.MockTestArgs.codec (bytesOf "Test") CALL 100
          ⟨some ⟨bytesOf reqMsg⟩⟩).1) = .ok (resp, none) →
      testHandler () (some MockImpl) (.testArgs ⟨some ⟨bytesOf reqMsg⟩⟩)
        (.testResult kt.NewMockTestResult) = .ok (r, none) →
      MarshalFastMsg kt.MockTestResult.codec (bytesOf "Test") REPLY 100 r =
        ((MarshalFastMsg kt.MockTestResult.codec (bytesOf "Test") REPLY 100 r).1, none) ∧
      resp = .bytes (MarshalFastMsg kt.MockTestResult.codec (bytesOf "Test") REPLY 100 r).1) :=
  generic_agrees_with_typed () (bytesOf "Test") 100 ⟨bytesOf reqMsg⟩
    (MarshalFastMsg kt.MockTestArgs.codec (bytesOf "Test") CALL 100 ⟨some ⟨bytesOf reqMsg⟩⟩).1
    (by decide) (by decide) (by decide) (by decide) (by decide)

/-- Claim C7: for every method name the length of `genBinaryResp(method)` is the capacity
`n = MessageBeginLength(method, 0, 0) + len("Hi, I am Kitex")` it allocates; the buffer
after the first append is within that capacity and the second append fills it exactly. -/
theorem genBinaryResp_fills_capacity (method : Bytes) :
    genBinaryResp.n method =
        Binary.MessageBeginLength method 0 0 + (bytesOf "Hi, I am Kitex").length ∧
      (genBinaryResp.begin method).length ≤ genBinaryResp.n method ∧
      genBinaryResp method = genBinaryResp.begin method ++ bytesOf respMsg ∧
      (genBinaryResp method).length = genBinaryResp.n method := by
  refine ⟨rfl, ?_, rfl, ?_⟩
  · rw [genBinaryResp.begin, appendMessageBegin_length, genBinaryResp.n,
      Binary.MessageBeginLength]
    simp only [List.length_nil]
    omega
  · simp only [genBinaryResp, List.length_append, appendMessageBegin_length, genBinaryResp.n,
      Binary.MessageBeginLength, List.length_nil]
    omega

/-- Claim C8, as written, fails: the frame `GenericServiceImpl.GenericCall` returns for
method "Test" reads back with message kind 0, which is not REPLY. -/
theorem generic_call_kind_is_not_reply :
    GenericServiceImpl.GenericCall () (bytesOf "Test")
        (.bytes (Binary.AppendMessageBegin [] (bytesOf "Test") CALL 1 ++ bytesOf reqMsg)) =
        .ok (.bytes (genBinaryResp (bytesOf "Test")), none) ∧
      Binary.ReadMessageBegin (genBinaryResp (bytesOf "Test")) =
        .ok (bytesOf "Test", 0, 100, 16) ∧
      ¬ ∃ name seq l, Binary.ReadMessageBegin (genBinaryResp (bytesOf "Test")) =
        .ok (name, REPLY, seq, l) := by
  have h : Binary.ReadMessageBegin (genBinaryResp (bytesOf "Test")) =
      .ok (bytesOf "Test", 0, 100, 16) := rfl
  refine ⟨rfl, h, ?_⟩
  rintro ⟨name, seq, l, hr⟩
  rw [h] at hr
  simp only [Except.ok.injEq, Prod.mk.injEq] at hr
  exact absurd hr.2.1 (by decide)

/-- Claim C8, amended: on every byte-slice request of at least `8 + len(method)` bytes
`GenericServiceImpl.GenericCall` returns, with a nil error, the frame of `genBinaryResp`,
and it succeeds on no other request; the message kind of that frame reads back as 0, the
value `genBinaryResp` writes, which is none of CALL, REPLY, EXCEPTION and ONEWAY. -/
theorem generic_call_kind_reads_zero {Ctx : Type} (ctx : Ctx) (method : Bytes)
    (request : GoValue) (hlen : method.length < 2 ^ 31) :
    (∀ req, request = .bytes req → 8 + method.length ≤ req.length →
      GenericServiceImpl.GenericCall ctx method request =
        .ok (.bytes (genBinaryResp method), none)) ∧
    (∀ response, GenericServiceImpl.GenericCall ctx method request = .ok (response, none) →
      response = .bytes (genBinaryResp method)) ∧
    Binary.ReadMessageBegin (genBinaryResp method) =
      .ok (method, 0, 100, Binary.MessageBeginLength method 0 100) ∧
    (0 : TMessageType) ∉ [CALL, REPLY, EXCEPTION, ONEWAY] := by
  refine ⟨?_, ?_, ?_, by decide⟩
  · intro req hr hb
    subst hr
    simp [GenericServiceImpl.GenericCall, GenericServiceImpl.recv, hb]
  · intro response h
    cases request with
    | bytes req =>
      simp only [GenericServiceImpl.GenericCall, GenericServiceImpl.recv] at h
      split at h
      · cases h
      · simp only [Except.ok.injEq, Prod.mk.injEq, and_true] at h
        exact h.symm
    | nil => simp [GenericServiceImpl.GenericCall] at h
    | testArgs a => simp [GenericServiceImpl.GenericCall] at h
    | testResult r => simp [GenericServiceImpl.GenericCall] at h
    | other t => simp [GenericServiceImpl.GenericCall] at h
  · have h := readMessageBegin_append method 0 100 hlen (by decide) (by decide) (by decide)
      (bytesOf respMsg)
    simp only [genBinaryResp, h, Binary.MessageBeginLength, Except.ok.injEq, Prod.mk.injEq,
      true_and]
    omega

theorem generic_call_kind_reads_zero_witness :
    (∀ req, GoValue.bytes (bytesOf "Hello Kitex, hello") = .bytes req →
      8 + (bytesOf "Test").length ≤ req.length →
      GenericServiceImpl.GenericCall () (bytesOf "Test")
        (.bytes (bytesOf "Hello Kitex, hello")) =
        .ok (.bytes (genBinaryResp (bytesOf "Test")), none)) ∧
    (∀ response, GenericServiceImpl.GenericCall () (bytesOf "Test")
        (.bytes (bytesOf "Hello Kitex, hello")) = .ok (response, none) →
      response = .bytes (genBinaryResp (bytesOf "Test"))) ∧
    Binary.ReadMessageBegin (genBinaryResp (bytesOf "Test")) =
      .ok (bytesOf "Test", 0, 100, Binary.MessageBeginLength (bytesOf "Test") 0 100) ∧
    (0 : TMessageType) ∉ [CALL, REPLY, EXCEPTION, ONEWAY] :=
  generic_call_kind_reads_zero () (bytesOf "Test") (.bytes (bytesOf "Hello Kitex, hello"))
    (by decide)

/-- Claim C9: on every request buffer that is a strict prefix of a message-begin prefix,
reading the message begin fails, and `GenericServiceMockImpl.GenericCall` returns a nil
response together with that decode error; no reply frame is built. -/
theorem mock_generic_call_truncated {Ctx : Type} (ctx : Ctx) (method name : Bytes)
    (kind : TMessageType) (seq : Int) (k : Nat) (hlen : name.length < 2 ^ 31)
    (hk : k < (Binary.AppendMessageBegin [] name kind seq).length) :
    ∃ e, Binary.ReadMessageBegin ((Binary.AppendMessageBegin [] name kind seq).take k) =
        .error e ∧
      GenericServiceMockImpl.GenericCall ctx method
        (.bytes ((Binary.AppendMessageBegin [] name kind seq).take k)) = .ok (.nil, some e) := by
  obtain ⟨e, he⟩ := readMessageBegin_truncated name kind seq k hlen hk
  refine ⟨e, he, ?_⟩
  simp only [GenericServiceMockImpl.GenericCall, unmarshalFastMsg_prefix_error _ _ _ e he]

theorem mock_generic_call_truncated_witness :
    ∃ e, Binary.ReadMessageBegin ((Binary.AppendMessageBegin [] (bytesOf "Test") CALL 100).take 11) =
        .error e ∧
      GenericServiceMockImpl.GenericCall () (bytesOf "Test")
        (.bytes ((Binary.AppendMessageBegin [] (bytesOf "Test") CALL 100).take 11)) =
          .ok (.nil, some e) :=
  mock_generic_call_truncated () (bytesOf "Test") (bytesOf "Test") CALL 100 11 (by decide)
    (by decide)

/-- Claim C10: for a byte-slice request that begins with a complete message-begin prefix
for the method, the slice `req[8+len(method):]` of `GenericServiceImpl.GenericCall` is in
bounds and its first four bytes are the big-endian sequence id; for a byte-slice request
shorter than `8+len(method)` the slice is out of bounds and the call panics. -/
theorem generic_call_slice {Ctx : Type} (ctx : Ctx) (method : Bytes) (kind : TMessageType)
    (seqId : Int) (rest short : Bytes) (hshort : short.length < 8 + method.length) :
    (8 + method.length ≤ (Binary.AppendMessageBegin [] method kind seqId ++ rest).length ∧
      GenericServiceImpl.recv method (Binary.AppendMessageBegin [] method kind seqId ++ rest) =
        some (putUint32 (u32 seqId) ++ rest) ∧
      (putUint32 (u32 seqId) ++ rest).take 4 = putUint32 (u32 seqId) ∧
      GenericServiceImpl.GenericCall ctx method
        (.bytes (Binary.AppendMessageBegin [] method kind seqId ++ rest)) =
          .ok (.bytes (genBinaryResp method), none)) ∧
    (GenericServiceImpl.recv method short = none ∧
      GenericServiceImpl.GenericCall ctx method (.bytes short) = .error panicSliceBounds) := by
  have hl : 8 + method.length ≤
      (Binary.AppendMessageBegin [] method kind seqId ++ rest).length := by
    rw [List.length_append, appendMessageBegin_length]
    simp only [List.length_nil]
    omega
  have hrecv : GenericServiceImpl.recv method
      (Binary.AppendMessageBegin [] method kind seqId ++ rest) =
        some (putUint32 (u32 seqId) ++ rest) := by
    rw [GenericServiceImpl.recv, if_pos hl, appendMessageBegin_eq]
    have e : [] ++ (putUint32 (msgVersion1 ||| kind &&& msgTypeMask) ++
        (putUint32 (method.length % 2 ^ 32) ++ (method ++ putUint32 (u32 seqId)))) ++ rest =
        (putUint32 (msgVersion1 ||| kind &&& msgTypeMask) ++
          putUint32 (method.length % 2 ^ 32) ++ method) ++ (putUint32 (u32 seqId) ++ rest) := by
      simp
    rw [e, List.drop_left' (by simp [putUint32_length]; omega)]
  have hnone : GenericServiceImpl.recv method short = none := by
    rw [GenericServiceImpl.recv, if_neg (by omega)]
  refine ⟨⟨hl, hrecv, ?_, ?_⟩, hnone, ?_⟩
  · exact List.take_left' (putUint32_length _)
  · simp only [GenericServiceImpl.GenericCall, hrecv]
  · simp only [GenericServiceImpl.GenericCall, hnone]

theorem generic_call_slice_witness :
    (8 + (bytesOf "Test").length ≤
        (Binary.AppendMessageBegin [] (bytesOf "Test") CALL 100 ++ bytesOf reqMsg).length ∧
      GenericServiceImpl.recv (bytesOf "Test")
        (Binary.AppendMessageBegin [] (bytesOf "Test") CALL 100 ++ bytesOf reqMsg) =
        some (putUint32 (u32 100) ++ bytesOf reqMsg) ∧
      (putUint32 (u32 100) ++ bytesOf reqMsg).take 4 = putUint32 (u32 100) ∧
      GenericServiceImpl.GenericCall () (bytesOf "Test")
        (.bytes (Binary.AppendMessageBegin [] (bytesOf "Test") CALL 100 ++ bytesOf reqMsg)) =
          .ok (.bytes (genBinaryResp (bytesOf "Test")), none)) ∧
    (GenericServiceImpl.recv (bytesOf "Test") (bytesOf "Hello") = none ∧
      GenericServiceImpl.GenericCall () (bytesOf "Test") (.bytes (bytesOf "Hello")) =
        .error panicSliceBounds) :=
  generic_call_slice () (bytesOf "Test") CALL 100 (bytesOf reqMsg) (bytesOf "Hello") (by decide)

end Kitex
